import Mathlib

/-!
Verification of `examples/domain_adaptation/object_detection/cycle_gan.py`
from the Transfer-Learning-Library repository.

The Python source is shallowly embedded: pure helpers become Lean
functions, file-system access is a parameter `files : String → List String`
(the lines of each text file) or `fs : String → ImgF` (the image stored at a
path), the CycleGAN training loop becomes an event trace plus a small state
machine for `requires_grad` bookkeeping, and tensors / losses are abstract
values over caller-supplied network and criterion functions.
-/

/-! ## Python string / path primitives used by the script -/

/-- Model of `os.path.isabs` on POSIX: the path starts with a slash. -/
def isAbs (p : String) : Bool :=
  match p.data with
  | [] => false
  | c :: _ => c = '/'

/-- Python `str.strip()`: drop whitespace from both ends. -/
def pyStrip (s : String) : String :=
  ⟨((s.data.dropWhile Char.isWhitespace).reverse.dropWhile
      Char.isWhitespace).reverse⟩

/-- The string ends in a path separator. -/
def endsWithSlash (a : String) : Bool :=
  match a.data.getLast? with
  | some c => c = '/'
  | none => false

/-- Model of `os.path.join a b` for a relative `b` (the only way the script calls it):
append, inserting a slash unless `a` is empty or already ends in one. -/
def pathJoin (a b : String) : String :=
  if a = "" then b
  else if endsWithSlash a then a ++ b
  else a ++ "/" ++ b

/-- One step bound for `str.replace`: leftmost-first, non-overlapping
replacement of every occurrence of `pat` by `rep`, with fuel bounding the
number of consumed characters. -/
def replaceFuel (pat rep : List Char) : Nat → List Char → List Char
  | 0, s => s
  | _, [] => []
  | fuel + 1, c :: rest =>
      if pat ≠ [] ∧ pat.isPrefixOf (c :: rest) then
        rep ++ replaceFuel pat rep fuel ((c :: rest).drop pat.length)
      else
        c :: replaceFuel pat rep fuel rest

/-- Python `s.replace(pat, rep)` (for non-empty `pat`): replace every
non-overlapping occurrence, scanning left to right. -/
def pyReplace (s pat rep : String) : String :=
  ⟨replaceFuel pat.data rep.data s.data.length s.data⟩

/-- Whether `p` is a path prefix of `s` in the plain string sense. -/
def strStartsWith (s p : String) : Bool := p.data.isPrefixOf s.data

/-! ## Python `round` (banker's rounding, ties to even) on exact rationals -/

/-- Python 3 `round(q)` for a rational `q`: nearest integer, ties to even. -/
def pyRound (q : ℚ) : ℤ :=
  let f := ⌊q⌋
  let r := q - (f : ℚ)
  if r < 1/2 then f
  else if 1/2 < r then f + 1
  else if f % 2 = 0 then f else f + 1

/-! ## Images

A PIL image is modelled by its size together with an opaque content tag;
`resize` produces an image of exactly the requested size whose content is
computed by an abstract resampling function `resample content w h method`. -/

structure ImgF where
  width : ℕ
  height : ℕ
  content : ℕ
  deriving DecidableEq, Repr

/-- Model of `img.resize((w, h), method)`: the result has exactly size `(w, h)`. -/
def ImgF.resize (resample : ℕ → ℕ → ℕ → ℕ → ℕ) (img : ImgF)
    (w h method : ℕ) : ImgF :=
  ⟨w, h, resample img.content w h method⟩

/-- Constant `Image.BICUBIC`, the default `method` argument of `make_power_2`. -/
def BICUBIC : ℕ := 3

/-- Function `make_power_2(img, base, method)` from cycle_gan.py: round each side to
the nearest positive multiple of `base` (Python `round`, ties to even) and
resize, returning the input image itself when the size is already right. -/
def make_power_2 (resample : ℕ → ℕ → ℕ → ℕ → ℕ) (img : ImgF) (base : ℕ)
    (method : ℕ) : ImgF :=
  let ow := img.width
  let oh := img.height
  let h : ℕ := (max (pyRound ((oh : ℚ) / (base : ℚ))) 1).toNat * base
  let w : ℕ := (max (pyRound ((ow : ℚ) / (base : ℚ))) 1).toNat * base
  if h = oh ∧ w = ow then img
  else img.resize resample w h method

/-! ## `VOCImageFolder`

`root`, `phase` and `extension` are the constructor arguments; `samples` is
computed by `parse_data_file` from the lines of the data list file, which a
file-system map `files : String → List String` supplies. -/

structure VOCImageFolder where
  root : String
  phase : String
  extension : Option String
  samples : List String
  dataListFile : String
  deriving DecidableEq, Repr

/-- The per-line processing of `VOCImageFolder.parse_data_file`: strip the
line, append the extension when there is one, and when the result is not an
absolute path prefix it with `root/JPEGImages`. -/
def parseLine (root : String) (extension : Option String) (line : String) :
    String :=
  let line := pyStrip line
  let path :=
    match extension with
    | none => line
    | some e => line ++ e
  if isAbs path then path
  else pathJoin (pathJoin root "JPEGImages") path

/-- Method `VOCImageFolder.parse_data_file`: fold over the lines of the data list
file, appending one processed entry per line. -/
def parse_data_file (root : String) (lines : List String)
    (extension : Option String) : List String :=
  lines.foldl (fun data_list line => data_list ++ [parseLine root extension line]) []

/-- Constructor `VOCImageFolder.__init__`: locate the data list file under
`ImageSets/Main/{phase}.txt` and parse it. -/
def VOCImageFolder.make (files : String → List String) (root : String)
    (phase : String) (extension : Option String) : VOCImageFolder :=
  let data_list_file := pathJoin root (pathJoin "ImageSets/Main" (phase ++ ".txt"))
  { root := root
    phase := phase
    extension := extension
    samples := parse_data_file root (files data_list_file) extension
    dataListFile := data_list_file }

/-- Length `len(dataset)` of a `VOCImageFolder`. -/
def VOCImageFolder.len (ds : VOCImageFolder) : ℕ := ds.samples.length

/-- Method `VOCImageFolder.__getitem__`: load the image stored at
`self.samples[index]`, apply the transform when there is one, and return the
pair `(img, path)`.  `loader` stands for `default_loader` reading the file
system. -/
def VOCImageFolder.getitem (loader : String → ImgF)
    (transform : Option (ImgF → ImgF)) (ds : VOCImageFolder) (index : ℕ) :
    ImgF × String :=
  let path := ds.samples.getD index ""
  let img := loader path
  let img :=
    match transform with
    | some t => t img
    | none => img
  (img, path)

/-- A string that could be "the index of the target class": a non-empty
decimal numeral. -/
def isIndexString (s : String) : Bool := s ≠ "" && s.data.all Char.isDigit

/-- One file write performed by `VOCImageFolder.translate`. -/
structure Write where
  path : String
  image : ImgF
  deriving DecidableEq, Repr

/-- Method `VOCImageFolder.translate`: for each sample path, open the image, derive
the destination by `path.replace(self.root, target_root)`, pad the image to
multiples of `image_base`, translate it, resize it back to the original
`(ow, oh)` and save it at the destination.  The returned list collects the
writes in order; nothing else is modified. -/
def VOCImageFolder.translate (resample : ℕ → ℕ → ℕ → ℕ → ℕ)
    (fs : String → ImgF) (transform : ImgF → ImgF) (ds : VOCImageFolder)
    (target_root : String) (image_base : ℕ) : List Write :=
  ds.samples.map (fun path =>
    let image := fs path
    let translated_path := pyReplace path ds.root target_root
    let ow := image.width
    let oh := image.height
    let image := make_power_2 resample image image_base BICUBIC
    let translated_image := transform image
    let translated_image := translated_image.resize resample ow oh BICUBIC
    ⟨translated_path, translated_image⟩)

/-! ## `ConcatDataset` and `build_dataset` -/

/-- Model of `torch.utils.data.ConcatDataset`: a list of constituent datasets. -/
structure ConcatDataset where
  datasets : List VOCImageFolder
  deriving DecidableEq, Repr

/-- Model of `ConcatDataset.cumsum`: running totals of the constituent lengths. -/
def cumsumLens : List VOCImageFolder → ℕ → List ℕ
  | [], _ => []
  | d :: ds, acc => (acc + d.len) :: cumsumLens ds (acc + d.len)

/-- Model of `ConcatDataset.__len__`: the last cumulative size. -/
def ConcatDataset.len (c : ConcatDataset) : ℕ :=
  (cumsumLens c.datasets 0).getLastD 0

/-- The per-name branch of `build_dataset`: which phase and extension a
dataset name selects.  The default extension of `VOCImageFolder` is
`.jpg`. -/
def buildOne (files : String → List String) (dataset_name root : String) :
    VOCImageFolder :=
  if dataset_name = "WaterColor" ∨ dataset_name = "Comic" then
    VOCImageFolder.make files root "train" (some ".jpg")
  else if dataset_name = "Cityscapes" ∨ dataset_name = "FoggyCityscapes" then
    VOCImageFolder.make files root "trainval" (some ".png")
  else if dataset_name = "Sim10k" then
    VOCImageFolder.make files root "trainval10k" (some ".jpg")
  else
    VOCImageFolder.make files root "trainval" (some ".jpg")

/-- Function `build_dataset(dataset_names, dataset_roots, transform)`: zip the two
lists positionally and build one `VOCImageFolder` per pair. -/
def build_dataset (files : String → List String)
    (dataset_names dataset_roots : List String) : ConcatDataset :=
  ⟨(dataset_names.zip dataset_roots).map (fun p => buildOne files p.1 p.2)⟩

/-- Python slice `a[::2]`: every other element starting at index 0. -/
def sliceStep2 : List α → List α
  | [] => []
  | [x] => [x]
  | x :: _ :: rest => x :: sliceStep2 rest

/-- Python slice `a[1::2]`: every other element starting at index 1. -/
def sliceStep2From1 (l : List α) : List α := sliceStep2 l.tail

/-! ## The loss computations of one `train` iteration

Tensors live in an abstract type `V`; the networks are caller-supplied
functions `V → V` and the criteria caller-supplied functions into `ℚ`
(framework code outside this repository).  The definitions below transcribe
the statement sequence of the loop body of `train`. -/

/-- The intermediate tensors and loss values of the generator update. -/
structure GenUpdate (V : Type) where
  fake_T : V
  rec_S : V
  fake_S : V
  rec_T : V
  identity_T : V
  identity_S : V
  loss_G_S2T : ℚ
  loss_G_T2S : ℚ
  loss_cycle_S : ℚ
  loss_cycle_T : ℚ
  loss_identity_T : ℚ
  loss_identity_S : ℚ
  loss_G : ℚ

/-- Lines 274–301 of cycle_gan.py: compute the fake, reconstruction and
identity images and the six generator loss terms, and combine them into
`loss_G`. -/
def generatorUpdate {V : Type} (netG_S2T netG_T2S netD_S netD_T : V → V)
    (criterion_gan : V → Bool → ℚ) (criterion_cycle criterion_identity : V → V → ℚ)
    (trade_off_cycle trade_off_identity : ℚ) (real_S real_T : V) :
    GenUpdate V :=
  let fake_T := netG_S2T real_S
  let rec_S := netG_T2S fake_T
  let fake_S := netG_T2S real_T
  let rec_T := netG_S2T fake_S
  let loss_G_S2T := criterion_gan (netD_T fake_T) true
  let loss_G_T2S := criterion_gan (netD_S fake_S) true
  let loss_cycle_S := criterion_cycle rec_S real_S * trade_off_cycle
  let loss_cycle_T := criterion_cycle rec_T real_T * trade_off_cycle
  let identity_T := netG_S2T real_T
  let loss_identity_T := criterion_identity identity_T real_T * trade_off_identity
  let identity_S := netG_T2S real_S
  let loss_identity_S := criterion_identity identity_S real_S * trade_off_identity
  let loss_G := loss_G_S2T + loss_G_T2S + loss_cycle_S + loss_cycle_T +
    loss_identity_S + loss_identity_T
  { fake_T := fake_T, rec_S := rec_S, fake_S := fake_S, rec_T := rec_T
    identity_T := identity_T, identity_S := identity_S
    loss_G_S2T := loss_G_S2T, loss_G_T2S := loss_G_T2S
    loss_cycle_S := loss_cycle_S, loss_cycle_T := loss_cycle_T
    loss_identity_T := loss_identity_T, loss_identity_S := loss_identity_S
    loss_G := loss_G }

/-- The pooled batches and loss values of the discriminator update. -/
structure DiscUpdate (V : Type) where
  fake_S_pooled : V
  fake_T_pooled : V
  loss_D_S : ℚ
  loss_D_T : ℚ

/-- Lines 310–315 of cycle_gan.py: query each image pool with the detached
fake batch and form each discriminator's loss.  `query_S` and `query_T` are
`fake_S_pool.query` and `fake_T_pool.query` at their current buffer states,
and `detach` is `Tensor.detach` — all framework or library code outside
src/, kept abstract. -/
def discriminatorUpdate {V : Type} (netD_S netD_T : V → V)
    (criterion_gan : V → Bool → ℚ) (query_S query_T detach : V → V)
    (real_S real_T fake_S fake_T : V) : DiscUpdate V :=
  let fake_S_ := query_S (detach fake_S)
  let loss_D_S := (0.5 : ℚ) *
    (criterion_gan (netD_S real_S) true + criterion_gan (netD_S fake_S_) false)
  let fake_T_ := query_T (detach fake_T)
  let loss_D_T := (0.5 : ℚ) *
    (criterion_gan (netD_T real_T) true + criterion_gan (netD_T fake_T_) false)
  { fake_S_pooled := fake_S_, fake_T_pooled := fake_T_
    loss_D_S := loss_D_S, loss_D_T := loss_D_T }

/-! ## The gradient-relevant event trace of one `train` iteration

Each statement of the loop body that touches `requires_grad`, gradients or
optimizers becomes an event; a small state machine says what each event does
to the gradient buffers (a backward pass accumulates into a parameter's
gradient exactly when that parameter currently requires grad). -/

inductive GradEvent
  | computeImages
  | setRequiresGradDS (b : Bool)
  | setRequiresGradDT (b : Bool)
  | zeroGradG
  | backwardLossG
  | stepOptimizerG
  | zeroGradD
  | backwardLossDS
  | backwardLossDT
  | stepOptimizerD
  | updateMeters
  deriving DecidableEq, Repr

/-- Lines 281–303: the generator half of one iteration. -/
def generatorSegment : List GradEvent :=
  [.setRequiresGradDS false, .setRequiresGradDT false, .zeroGradG,
   .backwardLossG, .stepOptimizerG]

/-- Lines 306–317: the discriminator half of one iteration. -/
def discriminatorSegment : List GradEvent :=
  [.setRequiresGradDS true, .setRequiresGradDT true, .zeroGradD,
   .backwardLossDS, .backwardLossDT, .stepOptimizerD]

/-- The event sequence of one full iteration of the `train` loop. -/
def iterationTrace : List GradEvent :=
  GradEvent.computeImages ::
    (generatorSegment ++ discriminatorSegment ++ [GradEvent.updateMeters])

/-- The event sequence of one call to `train`:
`args.iters_per_epoch` repetitions of the iteration body. -/
def trainTrace (iters_per_epoch : ℕ) : List GradEvent :=
  (List.replicate iters_per_epoch iterationTrace).flatten

/-- Gradient bookkeeping: the `requires_grad` flags of the two
discriminators, a gradient-accumulation counter per parameter group, and a
version counter per parameter group. -/
structure GradState where
  reqGradDS : Bool
  reqGradDT : Bool
  gradG : ℕ
  gradDS : ℕ
  gradDT : ℕ
  paramsG : ℕ
  paramsDS : ℕ
  paramsDT : ℕ
  deriving DecidableEq, Repr

/-- Effect of one event.  `loss_G` and each `loss_D_*` depend on the
corresponding discriminator, so their backward passes accumulate into that
discriminator's gradients exactly when it requires grad; `loss_D_*` is built
from detached generator outputs, so its backward never touches the
generators. -/
def stepEvent (s : GradState) : GradEvent → GradState
  | .computeImages => s
  | .setRequiresGradDS b => { s with reqGradDS := b }
  | .setRequiresGradDT b => { s with reqGradDT := b }
  | .zeroGradG => { s with gradG := 0 }
  | .backwardLossG =>
      { s with gradG := s.gradG + 1
               gradDS := s.gradDS + (if s.reqGradDS then 1 else 0)
               gradDT := s.gradDT + (if s.reqGradDT then 1 else 0) }
  | .stepOptimizerG => { s with paramsG := s.paramsG + s.gradG }
  | .zeroGradD => { s with gradDS := 0, gradDT := 0 }
  | .backwardLossDS => { s with gradDS := s.gradDS + (if s.reqGradDS then 1 else 0) }
  | .backwardLossDT => { s with gradDT := s.gradDT + (if s.reqGradDT then 1 else 0) }
  | .stepOptimizerD =>
      { s with paramsDS := s.paramsDS + s.gradDS
               paramsDT := s.paramsDT + s.gradDT }
  | .updateMeters => s

/-- Run a list of events from a state. -/
def runEvents (s : GradState) (es : List GradEvent) : GradState :=
  es.foldl stepEvent s

/-! ## Loss meters -/

/-- Modelled from the spec: `AverageMeter` lives in `common.utils.meter`,
which is not among the source files; the spec describes it as the
training-loop "loss averaging" bookkeeping.  `update(val, n)` adds `val`
with weight `n` to a running weighted sum and `avg` is the weighted running
average `sum / count`. -/
structure AverageMeter where
  name : String
  fmt : String
  val : ℚ
  avg : ℚ
  sum : ℚ
  count : ℕ
  deriving DecidableEq, Repr

/-- A freshly constructed (reset) meter, as created at the start of each
call to `train`. -/
def AverageMeter.make (name fmt : String) : AverageMeter :=
  { name := name, fmt := fmt, val := 0, avg := 0, sum := 0, count := 0 }

/-- Method `AverageMeter.update(val, n)`. -/
def AverageMeter.update (m : AverageMeter) (v : ℚ) (n : ℕ) : AverageMeter :=
  let sum := m.sum + v * (n : ℚ)
  let count := m.count + n
  { m with val := v, sum := sum, count := count, avg := sum / (count : ℚ) }

/-- Feed a meter one value per iteration, each with the same count `b`
(`real_S.size(0)`, the source batch size). -/
def runMeter (m : AverageMeter) (vs : List ℚ) (b : ℕ) : AverageMeter :=
  vs.foldl (fun m v => m.update v b) m

/-- One of the eight loss meters of `train` after the given per-iteration
loss values of the current epoch: it starts from a freshly constructed
meter, as in lines 246–253 of cycle_gan.py. -/
def trainMeter (name fmt : String) (vs : List ℚ) (b : ℕ) : AverageMeter :=
  runMeter (AverageMeter.make name fmt) vs b

/-! ## The `train` phase of `main`

The mutable training state is the eight checkpointed components, each an
abstract state-dict value; `train` and the two scheduler steps are abstract
transitions supplied by the caller (their bodies are the framework's). -/

structure ModelState where
  netG_S2T : ℕ
  netG_T2S : ℕ
  netD_S : ℕ
  netD_T : ℕ
  optimizer_G : ℕ
  optimizer_D : ℕ
  lr_scheduler_G : ℕ
  lr_scheduler_D : ℕ
  deriving DecidableEq, Repr

/-- The dictionary passed to `torch.save` at the end of each epoch. -/
structure Checkpoint where
  netG_S2T : ℕ
  netG_T2S : ℕ
  netD_S : ℕ
  netD_T : ℕ
  optimizer_G : ℕ
  optimizer_D : ℕ
  lr_scheduler_G : ℕ
  lr_scheduler_D : ℕ
  epoch : ℕ
  deriving DecidableEq, Repr

/-- Lines 213–226: snapshot all eight state dicts and the epoch number. -/
def saveCheckpoint (s : ModelState) (epoch : ℕ) : Checkpoint :=
  { netG_S2T := s.netG_S2T, netG_T2S := s.netG_T2S
    netD_S := s.netD_S, netD_T := s.netD_T
    optimizer_G := s.optimizer_G, optimizer_D := s.optimizer_D
    lr_scheduler_G := s.lr_scheduler_G, lr_scheduler_D := s.lr_scheduler_D
    epoch := epoch }

/-- Lines 165–176, the `args.resume` block: restore all eight state dicts
and set `args.start_epoch` to the saved epoch plus one. -/
def loadCheckpoint (c : Checkpoint) : ModelState × ℕ :=
  ({ netG_S2T := c.netG_S2T, netG_T2S := c.netG_T2S
     netD_S := c.netD_S, netD_T := c.netD_T
     optimizer_G := c.optimizer_G, optimizer_D := c.optimizer_D
     lr_scheduler_G := c.lr_scheduler_G, lr_scheduler_D := c.lr_scheduler_D },
   c.epoch + 1)

inductive MainEvent
  | trainCall (epoch : ℕ)
  | schedulerStepG
  | schedulerStepD
  | save (c : Checkpoint)
  deriving DecidableEq, Repr

/-- Python `range(a, b)`. -/
def pyRange (a b : ℕ) : List ℕ := (List.range (b - a)).map (a + ·)

/-- Lines 199–226, one epoch of the training loop: call `train`, step both
learning-rate schedulers, then save a checkpoint of the resulting state. -/
def epochBody (trainT schedStepG schedStepD : ModelState → ModelState)
    (epoch : ℕ) (s : ModelState) : ModelState × List MainEvent :=
  let s1 := trainT s
  let s2 := schedStepG s1
  let s3 := schedStepD s2
  (s3, [.trainCall epoch, .schedulerStepG, .schedulerStepD,
        .save (saveCheckpoint s3 epoch)])

/-- The `for epoch in …` loop over a list of epoch numbers. -/
def trainLoop (trainT schedStepG schedStepD : ModelState → ModelState)
    (s : ModelState) : List ℕ → ModelState × List MainEvent
  | [] => (s, [])
  | e :: rest =>
      let r := epochBody trainT schedStepG schedStepD e s
      let rest' := trainLoop trainT schedStepG schedStepD r.1 rest
      (rest'.1, r.2 ++ rest'.2)

/-- The `train` phase of `main`: loop over
`range(args.start_epoch, args.epochs + args.epochs_decay)`. -/
def trainPhase (trainT schedStepG schedStepD : ModelState → ModelState)
    (start_epoch total_epochs : ℕ) (s : ModelState) :
    ModelState × List MainEvent :=
  trainLoop trainT schedStepG schedStepD s (pyRange start_epoch total_epochs)

/-- The epochs at which `train` was called, in order. -/
def trainEpochsOf (es : List MainEvent) : List ℕ :=
  es.filterMap (fun e =>
    match e with
    | .trainCall k => some k
    | _ => none)

/-! ## Theorems -/

/-- The side length `make_power_2` aims for: the positive multiple of `base`
nearest to the original side `o` (Python rounding). -/
def sideFormula (o base : ℕ) : ℕ :=
  (max (pyRound ((o : ℚ) / (base : ℚ))) 1).toNat * base

theorem pyRound_intCast (n : ℤ) : pyRound (n : ℚ) = n := by
  simp [pyRound]

theorem sideFormula_of_dvd {o base : ℕ} (hd : base ∣ o) (ho : 0 < o)
    (hb : 0 < base) : sideFormula o base = o := by
  obtain ⟨a, rfl⟩ := hd
  have ha : 0 < a := by
    rcases Nat.eq_zero_or_pos a with h | h
    · subst h; simp at ho
    · exact h
  have hb' : (base : ℚ) ≠ 0 := by exact_mod_cast hb.ne'
  have hcast : ((base * a : ℕ) : ℚ) / (base : ℚ) = ((a : ℤ) : ℚ) := by
    push_cast
    field_simp
  unfold sideFormula
  rw [hcast, pyRound_intCast]
  have hmax : max ((a : ℕ) : ℤ) 1 = ((a : ℕ) : ℤ) :=
    max_eq_left (by exact_mod_cast ha)
  rw [hmax]
  simp [Nat.mul_comm]

theorem sideFormula_pos {o base : ℕ} (hb : 0 < base) :
    0 < sideFormula o base := by
  unfold sideFormula
  have h1 : (1 : ℤ) ≤ max (pyRound ((o : ℚ) / (base : ℚ))) 1 := le_max_right _ _
  have h2 : 1 ≤ (max (pyRound ((o : ℚ) / (base : ℚ))) 1).toNat := by omega
  exact Nat.mul_pos h2 hb

theorem sideFormula_dvd (o base : ℕ) : base ∣ sideFormula o base := by
  unfold sideFormula
  exact dvd_mul_left base _

theorem make_power_2_size (resample : ℕ → ℕ → ℕ → ℕ → ℕ) (img : ImgF)
    (base method : ℕ) :
    (make_power_2 resample img base method).width = sideFormula img.width base ∧
    (make_power_2 resample img base method).height = sideFormula img.height base := by
  by_cases hc :
      (max (pyRound ((img.height : ℚ) / (base : ℚ))) 1).toNat * base = img.height ∧
      (max (pyRound ((img.width : ℚ) / (base : ℚ))) 1).toNat * base = img.width
  · simp [make_power_2, sideFormula, hc, hc.1, hc.2]
  · simp [make_power_2, sideFormula, ImgF.resize, hc]

theorem make_power_2_of_dvd (resample : ℕ → ℕ → ℕ → ℕ → ℕ) (img : ImgF)
    (base method : ℕ) (hb : 0 < base) (hw0 : 0 < img.width)
    (hh0 : 0 < img.height) (hw : base ∣ img.width) (hh : base ∣ img.height) :
    make_power_2 resample img base method = img := by
  have h1 := sideFormula_of_dvd hw hw0 hb
  have h2 := sideFormula_of_dvd hh hh0 hb
  unfold sideFormula at h1 h2
  simp [make_power_2, h1, h2]

/-- C8: for positive sides and positive `base`, `make_power_2` produces the
sides `max(round(o/base), 1) * base` (Python rounding, ties to even), which
are positive multiples of `base`; when both sides already are multiples of
`base` it returns the input image itself; and it is idempotent. -/
theorem C8_make_power_2 (resample : ℕ → ℕ → ℕ → ℕ → ℕ) (img : ImgF)
    (base method : ℕ) (hw : 0 < img.width) (hh : 0 < img.height)
    (hb : 0 < base) :
    ((make_power_2 resample img base method).width = sideFormula img.width base ∧
     (make_power_2 resample img base method).height = sideFormula img.height base) ∧
    (0 < (make_power_2 resample img base method).width ∧
     0 < (make_power_2 resample img base method).height ∧
     base ∣ (make_power_2 resample img base method).width ∧
     base ∣ (make_power_2 resample img base method).height) ∧
    ((base ∣ img.width ∧ base ∣ img.height) →
      make_power_2 resample img base method = img) ∧
    make_power_2 resample (make_power_2 resample img base method) base method =
      make_power_2 resample img base method := by
  obtain ⟨hwdim, hhdim⟩ := make_power_2_size resample img base method
  refine ⟨⟨hwdim, hhdim⟩, ⟨?_, ?_, ?_, ?_⟩, ?_, ?_⟩
  · rw [hwdim]; exact sideFormula_pos hb
  · rw [hhdim]; exact sideFormula_pos hb
  · rw [hwdim]; exact sideFormula_dvd _ _
  · rw [hhdim]; exact sideFormula_dvd _ _
  · rintro ⟨h1, h2⟩
    exact make_power_2_of_dvd resample img base method hb hw hh h1 h2
  · apply make_power_2_of_dvd resample _ base method hb
    · rw [hwdim]; exact sideFormula_pos hb
    · rw [hhdim]; exact sideFormula_pos hb
    · rw [hwdim]; exact sideFormula_dvd _ _
    · rw [hhdim]; exact sideFormula_dvd _ _

/-- C8 witness: the theorem applied at a concrete image and base. -/
theorem C8_make_power_2_witness :
    0 < (ImgF.mk 5 6 0).width ∧ 0 < (ImgF.mk 5 6 0).height ∧ 0 < 4 ∧
    (((make_power_2 (fun c _ _ _ => c) (ImgF.mk 5 6 0) 4 BICUBIC).width =
        sideFormula (ImgF.mk 5 6 0).width 4 ∧
      (make_power_2 (fun c _ _ _ => c) (ImgF.mk 5 6 0) 4 BICUBIC).height =
        sideFormula (ImgF.mk 5 6 0).height 4) ∧
     (0 < (make_power_2 (fun c _ _ _ => c) (ImgF.mk 5 6 0) 4 BICUBIC).width ∧
      0 < (make_power_2 (fun c _ _ _ => c) (ImgF.mk 5 6 0) 4 BICUBIC).height ∧
      4 ∣ (make_power_2 (fun c _ _ _ => c) (ImgF.mk 5 6 0) 4 BICUBIC).width ∧
      4 ∣ (make_power_2 (fun c _ _ _ => c) (ImgF.mk 5 6 0) 4 BICUBIC).height) ∧
     ((4 ∣ (ImgF.mk 5 6 0).width ∧ 4 ∣ (ImgF.mk 5 6 0).height) →
       make_power_2 (fun c _ _ _ => c) (ImgF.mk 5 6 0) 4 BICUBIC = ImgF.mk 5 6 0) ∧
     make_power_2 (fun c _ _ _ => c)
         (make_power_2 (fun c _ _ _ => c) (ImgF.mk 5 6 0) 4 BICUBIC) 4 BICUBIC =
       make_power_2 (fun c _ _ _ => c) (ImgF.mk 5 6 0) 4 BICUBIC) :=
  ⟨by decide, by decide, by decide,
   C8_make_power_2 (fun c _ _ _ => c) (ImgF.mk 5 6 0) 4 BICUBIC
     (by decide) (by decide) (by decide)⟩

theorem runEvents_append (s : GradState) (l1 l2 : List GradEvent) :
    runEvents s (l1 ++ l2) = runEvents (runEvents s l1) l2 := by
  simp [runEvents]

theorem trainTrace_succ (i : ℕ) :
    trainTrace (i + 1) = trainTrace i ++ iterationTrace := by
  simp [trainTrace, List.replicate_add]

theorem generatorSegment_fixes_discriminator (s : GradState) :
    (runEvents s generatorSegment).gradDS = s.gradDS ∧
    (runEvents s generatorSegment).gradDT = s.gradDT ∧
    (runEvents s generatorSegment).paramsDS = s.paramsDS ∧
    (runEvents s generatorSegment).paramsDT = s.paramsDT :=
  ⟨rfl, rfl, rfl, rfl⟩

/-- C1: in every iteration of `train`, the events run in the fixed order:
`requires_grad` is switched off on both discriminators, the combined
generator loss is backpropagated and `optimizer_G.step()` runs, and only
then are discriminator gradients re-enabled, the two discriminator losses
backpropagated and `optimizer_D.step()` run.  Both `requires_grad` flags are
false when `loss_G.backward()` executes, so the generator half of any
iteration — hence of every iteration of every epoch, by the trace
decomposition — leaves the discriminators' gradient buffers and parameters
untouched. -/
theorem C1_alternating_updates :
    (iterationTrace =
      GradEvent.computeImages ::
        ([.setRequiresGradDS false, .setRequiresGradDT false, .zeroGradG,
          .backwardLossG, .stepOptimizerG] ++
         ([.setRequiresGradDS true, .setRequiresGradDT true, .zeroGradD,
           .backwardLossDS, .backwardLossDT, .stepOptimizerD] ++
          [GradEvent.updateMeters]))) ∧
    (∀ s : GradState,
      (runEvents s [GradEvent.setRequiresGradDS false,
        GradEvent.setRequiresGradDT false, GradEvent.zeroGradG]).reqGradDS = false ∧
      (runEvents s [GradEvent.setRequiresGradDS false,
        GradEvent.setRequiresGradDT false, GradEvent.zeroGradG]).reqGradDT = false) ∧
    (∀ s : GradState,
      (runEvents s generatorSegment).gradDS = s.gradDS ∧
      (runEvents s generatorSegment).gradDT = s.gradDT ∧
      (runEvents s generatorSegment).paramsDS = s.paramsDS ∧
      (runEvents s generatorSegment).paramsDT = s.paramsDT) ∧
    (∀ (s : GradState) (i : ℕ),
      runEvents s (trainTrace (i + 1)) =
        runEvents (runEvents s (trainTrace i)) iterationTrace) ∧
    (∀ (s : GradState) (i : ℕ),
      (runEvents (runEvents s (trainTrace i)) generatorSegment).gradDS =
        (runEvents s (trainTrace i)).gradDS ∧
      (runEvents (runEvents s (trainTrace i)) generatorSegment).gradDT =
        (runEvents s (trainTrace i)).gradDT) := by
  refine ⟨rfl, fun s => ⟨rfl, rfl⟩, generatorSegment_fixes_discriminator,
    fun s i => ?_, fun s i => ?_⟩
  · rw [trainTrace_succ, runEvents_append]
  · exact ⟨(generatorSegment_fixes_discriminator _).1,
      (generatorSegment_fixes_discriminator _).2.1⟩

/-- C2: `loss_G` is exactly the sum of the two generator GAN losses, the two
cycle-consistency losses weighted by `trade_off_cycle`, and the two identity
losses weighted by `trade_off_identity`. -/
theorem C2_loss_G_decomposition {V : Type}
    (netG_S2T netG_T2S netD_S netD_T : V → V)
    (criterion_gan : V → Bool → ℚ)
    (criterion_cycle criterion_identity : V → V → ℚ)
    (trade_off_cycle trade_off_identity : ℚ) (real_S real_T : V) :
    (generatorUpdate netG_S2T netG_T2S netD_S netD_T criterion_gan
        criterion_cycle criterion_identity trade_off_cycle trade_off_identity
        real_S real_T).loss_G =
      criterion_gan (netD_T (netG_S2T real_S)) true +
      criterion_gan (netD_S (netG_T2S real_T)) true +
      criterion_cycle (netG_T2S (netG_S2T real_S)) real_S * trade_off_cycle +
      criterion_cycle (netG_S2T (netG_T2S real_T)) real_T * trade_off_cycle +
      criterion_identity (netG_T2S real_S) real_S * trade_off_identity +
      criterion_identity (netG_S2T real_T) real_T * trade_off_identity := rfl

/-- C3: each discriminator's loss is one half of (its GAN loss on the real
batch labeled real, plus its GAN loss, labeled fake, on the batch obtained
by querying the corresponding image pool with the detached fake batch); and
the loss depends on the freshly generated fake batch only through
`pool.query ∘ detach`, never directly. -/
theorem C3_loss_D_pooled {V : Type} (netD_S netD_T : V → V)
    (criterion_gan : V → Bool → ℚ) (query_S query_T detach : V → V)
    (real_S real_T fake_S fake_T fake_S' fake_T' : V)
    (hS : query_S (detach fake_S') = query_S (detach fake_S))
    (hT : query_T (detach fake_T') = query_T (detach fake_T)) :
    ((discriminatorUpdate netD_S netD_T criterion_gan query_S query_T detach
        real_S real_T fake_S fake_T).loss_D_S =
      (0.5 : ℚ) * (criterion_gan (netD_S real_S) true +
        criterion_gan (netD_S (query_S (detach fake_S))) false) ∧
     (discriminatorUpdate netD_S netD_T criterion_gan query_S query_T detach
        real_S real_T fake_S fake_T).loss_D_T =
      (0.5 : ℚ) * (criterion_gan (netD_T real_T) true +
        criterion_gan (netD_T (query_T (detach fake_T))) false)) ∧
    discriminatorUpdate netD_S netD_T criterion_gan query_S query_T detach
        real_S real_T fake_S' fake_T' =
      discriminatorUpdate netD_S netD_T criterion_gan query_S query_T detach
        real_S real_T fake_S fake_T := by
  refine ⟨⟨rfl, rfl⟩, ?_⟩
  simp [discriminatorUpdate, hS, hT]

/-- C3 witness: the theorem applied at concrete networks, criteria, pool
queries and batches. -/
theorem C3_loss_D_pooled_witness :
    (fun _ : ℕ => 42) ((fun v : ℕ => v) 2) = (fun _ : ℕ => 42) ((fun v : ℕ => v) 1) ∧
    (fun _ : ℕ => 43) ((fun v : ℕ => v) 12) = (fun _ : ℕ => 43) ((fun v : ℕ => v) 11) ∧
    ((discriminatorUpdate (fun v : ℕ => v) (fun v => v + 1)
        (fun v _ => (v : ℚ)) (fun _ => 42) (fun _ => 43) (fun v => v)
        5 6 1 11).loss_D_S =
      (0.5 : ℚ) * (((fun v : ℕ => v) 5 : ℕ) +
        ((fun v : ℕ => v) ((fun _ : ℕ => 42) ((fun v : ℕ => v) 1)) : ℕ)) ∧
     (discriminatorUpdate (fun v : ℕ => v) (fun v => v + 1)
        (fun v _ => (v : ℚ)) (fun _ => 42) (fun _ => 43) (fun v => v)
        5 6 1 11).loss_D_T =
      (0.5 : ℚ) * (((fun v : ℕ => v + 1) 6 : ℕ) +
        ((fun v : ℕ => v + 1) ((fun _ : ℕ => 43) ((fun v : ℕ => v) 11)) : ℕ))) ∧
    discriminatorUpdate (fun v : ℕ => v) (fun v => v + 1)
        (fun v _ => (v : ℚ)) (fun _ => 42) (fun _ => 43) (fun v => v)
        5 6 2 12 =
      discriminatorUpdate (fun v : ℕ => v) (fun v => v + 1)
        (fun v _ => (v : ℚ)) (fun _ => 42) (fun _ => 43) (fun v => v)
        5 6 1 11 :=
  ⟨rfl, rfl,
   C3_loss_D_pooled (fun v : ℕ => v) (fun v => v + 1) (fun v _ => (v : ℚ))
     (fun _ => 42) (fun _ => 43) (fun v => v) 5 6 1 11 2 12 rfl rfl⟩

theorem foldl_append_singleton {α β : Type} (f : α → β) :
    ∀ (lines : List α) (acc : List β),
      lines.foldl (fun dl l => dl ++ [f l]) acc = acc ++ lines.map f
  | [], acc => by simp
  | l :: rest, acc => by
      simp [List.foldl_cons, foldl_append_singleton f rest]

theorem parse_data_file_eq_map (root : String) (lines : List String)
    (extension : Option String) :
    parse_data_file root lines extension = lines.map (parseLine root extension) := by
  simpa using foldl_append_singleton (parseLine root extension) lines []

/-- C6: `parse_data_file` yields one entry per line of the data list file in
file order — the stripped line, with the extension appended when one is
given, prefixed by `root/JPEGImages` when not absolute — so the dataset
length equals the number of lines. -/
theorem C6_parse_data_file (root : String) (lines : List String)
    (extension : Option String) (i : ℕ) (hi : i < lines.length) :
    (parse_data_file root lines extension).length = lines.length ∧
    (parse_data_file root lines extension)[i]? =
      some (if isAbs (match extension with
                      | none => pyStrip lines[i]
                      | some e => pyStrip lines[i] ++ e) then
              (match extension with
               | none => pyStrip lines[i]
               | some e => pyStrip lines[i] ++ e)
            else
              pathJoin (pathJoin root "JPEGImages")
                (match extension with
                 | none => pyStrip lines[i]
                 | some e => pyStrip lines[i] ++ e)) := by
  rw [parse_data_file_eq_map]
  refine ⟨by simp, ?_⟩
  rw [List.getElem?_map, List.getElem?_eq_getElem hi]
  simp [parseLine]

/-- C6 witness: the theorem applied to a concrete data list file. -/
theorem C6_parse_data_file_witness :
    0 < ([" a ", "/abs/b"] : List String).length ∧
    ((parse_data_file "/r" [" a ", "/abs/b"] (some ".jpg")).length =
      ([" a ", "/abs/b"] : List String).length ∧
     (parse_data_file "/r" [" a ", "/abs/b"] (some ".jpg"))[0]? =
      some (if isAbs (match (some ".jpg" : Option String) with
                      | none => pyStrip ([" a ", "/abs/b"] : List String)[0]
                      | some e => pyStrip ([" a ", "/abs/b"] : List String)[0] ++ e) then
              (match (some ".jpg" : Option String) with
               | none => pyStrip ([" a ", "/abs/b"] : List String)[0]
               | some e => pyStrip ([" a ", "/abs/b"] : List String)[0] ++ e)
            else
              pathJoin (pathJoin "/r" "JPEGImages")
                (match (some ".jpg" : Option String) with
                 | none => pyStrip ([" a ", "/abs/b"] : List String)[0]
                 | some e => pyStrip ([" a ", "/abs/b"] : List String)[0] ++ e))) :=
  ⟨by decide, C6_parse_data_file "/r" [" a ", "/abs/b"] (some ".jpg") 0 (by decide)⟩

/-- A stub image loader standing for `default_loader`. -/
def loaderStub : String → ImgF := fun _ => ⟨1, 1, 0⟩

/-- C4 counterexample: on a concrete dataset, the second component returned
by `__getitem__` is the sample's file path — a non-numeral string — not the
index of a target class. -/
theorem C4_getitem_counterexample :
    (VOCImageFolder.getitem loaderStub none
        (VOCImageFolder.make (fun _ => ["000001"]) "/r" "trainval"
          (some ".jpg")) 0).2 = "/r/JPEGImages/000001.jpg" ∧
    isIndexString
      (VOCImageFolder.getitem loaderStub none
        (VOCImageFolder.make (fun _ => ["000001"]) "/r" "trainval"
          (some ".jpg")) 0).2 = false := by
  constructor <;> decide

/-- C4 (amended): `__getitem__(index)` returns the pair `(image, target)`
where `image` is the loaded (and, when a transform is set, transformed)
image and `target` is the image's file path `self.samples[index]` — not a
class index, despite the docstring. -/
theorem C4_getitem_returns_path (loader : String → ImgF)
    (transform : Option (ImgF → ImgF)) (ds : VOCImageFolder) (index : ℕ)
    (hi : index < ds.samples.length) :
    VOCImageFolder.getitem loader transform ds index =
      ((match transform with
        | some t => t (loader ds.samples[index])
        | none => loader ds.samples[index]), ds.samples[index]) := by
  simp [VOCImageFolder.getitem, List.getD, List.getElem?_eq_getElem hi]

/-- C4 witness: the amended theorem applied at a concrete dataset. -/
theorem C4_getitem_returns_path_witness :
    0 < (VOCImageFolder.make (fun _ => ["000001"]) "/r" "trainval"
          (some ".jpg")).samples.length ∧
    VOCImageFolder.getitem loaderStub none
        (VOCImageFolder.make (fun _ => ["000001"]) "/r" "trainval"
          (some ".jpg")) 0 =
      ((match (none : Option (ImgF → ImgF)) with
        | some t => t (loaderStub (VOCImageFolder.make (fun _ => ["000001"])
            "/r" "trainval" (some ".jpg")).samples[0])
        | none => loaderStub (VOCImageFolder.make (fun _ => ["000001"])
            "/r" "trainval" (some ".jpg")).samples[0]),
       (VOCImageFolder.make (fun _ => ["000001"]) "/r" "trainval"
          (some ".jpg")).samples[0]) :=
  ⟨by decide,
   C4_getitem_returns_path loaderStub none
     (VOCImageFolder.make (fun _ => ["000001"]) "/r" "trainval" (some ".jpg"))
     0 (by decide)⟩

theorem cumsumLens_getLastD :
    ∀ (ds : List VOCImageFolder) (acc : ℕ),
      (cumsumLens ds acc).getLastD acc = acc + (ds.map VOCImageFolder.len).sum
  | [], acc => by simp [cumsumLens]
  | d :: ds, acc => by
      simp only [cumsumLens, List.map_cons, List.sum_cons, List.getLastD_cons]
      rw [cumsumLens_getLastD ds (acc + d.len)]
      omega

theorem concat_len_eq_sum (ds : List VOCImageFolder) :
    ConcatDataset.len ⟨ds⟩ = (ds.map VOCImageFolder.len).sum := by
  have h := cumsumLens_getLastD ds 0
  rw [Nat.zero_add] at h
  exact h

theorem sliceStep2_cons {α : Type} (y : α) (rest : List α) :
    sliceStep2 (y :: rest) = y :: sliceStep2From1 rest := by
  cases rest <;> rfl

theorem sliceStep2_length {α : Type} :
    ∀ l : List α, (sliceStep2 l).length = (l.length + 1) / 2
  | [] => by norm_num [sliceStep2]
  | [_] => by norm_num [sliceStep2]
  | _ :: _ :: rest => by
      simp only [sliceStep2, List.length_cons, sliceStep2_length rest]
      omega

theorem sliceStep2From1_length {α : Type} (l : List α) :
    (sliceStep2From1 l).length = l.length / 2 := by
  cases l with
  | nil => norm_num [sliceStep2From1, sliceStep2]
  | cons x rest =>
      simp only [sliceStep2From1, List.tail_cons, sliceStep2_length,
        List.length_cons]

theorem zip_slices_cons_cons {α : Type} (x y : α) (l : List α) :
    (sliceStep2 (x :: y :: l)).zip (sliceStep2From1 (x :: y :: l)) =
      (x, y) :: (sliceStep2 l).zip (sliceStep2From1 l) := by
  show (x :: sliceStep2 l).zip (sliceStep2 (y :: l)) = _
  rw [sliceStep2_cons]
  rfl

theorem zip_slices_dropLast {α : Type} :
    ∀ l : List α, l.length % 2 = 1 →
      (sliceStep2 l).zip (sliceStep2From1 l) =
        (sliceStep2 l.dropLast).zip (sliceStep2From1 l.dropLast)
  | [], h => by simp at h
  | [_], _ => rfl
  | x :: y :: rest, h => by
      have hr : rest.length % 2 = 1 := by
        simp only [List.length_cons] at h
        omega
      have hne : rest ≠ [] := by
        intro he
        rw [he] at hr
        simp at hr
      obtain ⟨z, rest', rfl⟩ := List.exists_cons_of_ne_nil hne
      have hdrop : (x :: y :: z :: rest').dropLast =
          x :: y :: (z :: rest').dropLast := rfl
      rw [zip_slices_cons_cons, zip_slices_dropLast (z :: rest') hr, hdrop,
        zip_slices_cons_cons]

/-- C10: `build_dataset` builds one `VOCImageFolder` per positional pair of
`zip(dataset_names, dataset_roots)` — so `min` of the two lengths many — in
a `ConcatDataset` whose length is the sum of the constituent lengths; the
name selects phase `train` for WaterColor/Comic, phase `trainval` with
extension `.png` for Cityscapes/FoggyCityscapes, phase `trainval10k` for
Sim10k, and phase `trainval` with the default `.jpg` extension otherwise;
and with the even-indexed elements of an odd-length argument list as names
and the odd-indexed ones as roots, the list's last element is silently
dropped. -/
theorem C10_build_dataset (files : String → List String)
    (names roots : List String) (name r : String) (l : List String)
    (hodd : l.length % 2 = 1)
    (hname : name ∉ (["WaterColor", "Comic", "Cityscapes", "FoggyCityscapes",
      "Sim10k"] : List String)) :
    (build_dataset files names roots).datasets.length =
      min names.length roots.length ∧
    ConcatDataset.len (build_dataset files names roots) =
      ((build_dataset files names roots).datasets.map VOCImageFolder.len).sum ∧
    (buildOne files "WaterColor" r =
        VOCImageFolder.make files r "train" (some ".jpg") ∧
     buildOne files "Comic" r =
        VOCImageFolder.make files r "train" (some ".jpg") ∧
     buildOne files "Cityscapes" r =
        VOCImageFolder.make files r "trainval" (some ".png") ∧
     buildOne files "FoggyCityscapes" r =
        VOCImageFolder.make files r "trainval" (some ".png") ∧
     buildOne files "Sim10k" r =
        VOCImageFolder.make files r "trainval10k" (some ".jpg") ∧
     buildOne files name r =
        VOCImageFolder.make files r "trainval" (some ".jpg")) ∧
    (build_dataset files (sliceStep2 l) (sliceStep2From1 l) =
      build_dataset files (sliceStep2 l.dropLast)
        (sliceStep2From1 l.dropLast) ∧
     (sliceStep2 l).length = (sliceStep2From1 l).length + 1) := by
  simp only [List.mem_cons, List.mem_singleton, not_or] at hname
  obtain ⟨h1, h2, h3, h4, h5⟩ := hname
  refine ⟨?_, ?_, ⟨rfl, rfl, rfl, rfl, rfl, ?_⟩, ?_, ?_⟩
  · simp [build_dataset]
  · exact concat_len_eq_sum _
  · simp [buildOne, h1, h2, h3, h4, h5]
  · unfold build_dataset
    rw [zip_slices_dropLast l hodd]
  · rw [sliceStep2_length, sliceStep2From1_length]
    omega

/-- C10 witness: the theorem applied at concrete argument lists. -/
theorem C10_build_dataset_witness :
    (["VOC2007", "/r1", "Extra"] : List String).length % 2 = 1 ∧
    ("VOC2007" : String) ∉ (["WaterColor", "Comic", "Cityscapes",
      "FoggyCityscapes", "Sim10k"] : List String) ∧
    ((build_dataset (fun _ => []) ["Sim10k"] ["/a", "/b"]).datasets.length =
      min (["Sim10k"] : List String).length (["/a", "/b"] : List String).length ∧
     ConcatDataset.len (build_dataset (fun _ => []) ["Sim10k"] ["/a", "/b"]) =
      ((build_dataset (fun _ => []) ["Sim10k"] ["/a", "/b"]).datasets.map
        VOCImageFolder.len).sum ∧
     (buildOne (fun _ => []) "WaterColor" "/r" =
        VOCImageFolder.make (fun _ => []) "/r" "train" (some ".jpg") ∧
      buildOne (fun _ => []) "Comic" "/r" =
        VOCImageFolder.make (fun _ => []) "/r" "train" (some ".jpg") ∧
      buildOne (fun _ => []) "Cityscapes" "/r" =
        VOCImageFolder.make (fun _ => []) "/r" "trainval" (some ".png") ∧
      buildOne (fun _ => []) "FoggyCityscapes" "/r" =
        VOCImageFolder.make (fun _ => []) "/r" "trainval" (some ".png") ∧
      buildOne (fun _ => []) "Sim10k" "/r" =
        VOCImageFolder.make (fun _ => []) "/r" "trainval10k" (some ".jpg") ∧
      buildOne (fun _ => []) "VOC2007" "/r" =
        VOCImageFolder.make (fun _ => []) "/r" "trainval" (some ".jpg")) ∧
     (build_dataset (fun _ => [])
        (sliceStep2 (["VOC2007", "/r1", "Extra"] : List String))
        (sliceStep2From1 (["VOC2007", "/r1", "Extra"] : List String)) =
      build_dataset (fun _ => [])
        (sliceStep2 (["VOC2007", "/r1", "Extra"] : List String).dropLast)
        (sliceStep2From1 (["VOC2007", "/r1", "Extra"] : List String).dropLast) ∧
      (sliceStep2 (["VOC2007", "/r1", "Extra"] : List String)).length =
        (sliceStep2From1 (["VOC2007", "/r1", "Extra"] : List String)).length + 1)) :=
  ⟨by decide, by decide,
   C10_build_dataset (fun _ => []) ["Sim10k"] ["/a", "/b"] "VOC2007" "/r"
     ["VOC2007", "/r1", "Extra"] (by decide) (by decide)⟩

theorem runMeter_sum_count (b : ℕ) :
    ∀ (vs : List ℚ) (m : AverageMeter),
      (runMeter m vs b).sum = m.sum + vs.sum * (b : ℚ) ∧
      (runMeter m vs b).count = m.count + vs.length * b
  | [], m => by simp [runMeter]
  | v :: rest, m => by
      have ih := runMeter_sum_count b rest (m.update v b)
      have hstep : runMeter m (v :: rest) b = runMeter (m.update v b) rest b := rfl
      rw [hstep]
      refine ⟨ih.1.trans ?_, ih.2.trans ?_⟩
      · simp only [AverageMeter.update, List.sum_cons]
        ring
      · simp only [AverageMeter.update, List.length_cons]
        ring

theorem runMeter_avg (b : ℕ) :
    ∀ (vs : List ℚ) (m : AverageMeter), vs ≠ [] →
      (runMeter m vs b).avg =
        (runMeter m vs b).sum / (((runMeter m vs b).count : ℕ) : ℚ)
  | [], _, h => absurd rfl h
  | [_], _, _ => rfl
  | v :: w :: rest, m, _ =>
      runMeter_avg b (w :: rest) (m.update v b) (by simp)

/-- C7: a loss meter of `train` starts from a freshly constructed meter and
is updated once per iteration with count `real_S.size(0) = b`; after
iteration `k` (that is, after the first `k+1` per-iteration loss values) its
`count` is `(k+1)*b` and its reported average is the running mean of the
loss values of iterations `0..k` of the current epoch only. -/
theorem C7_meter_running_average (name fmt : String) (vs : List ℚ) (b k : ℕ)
    (hb : 0 < b) (hk : k < vs.length) :
    (trainMeter name fmt (vs.take (k + 1)) b).count = (k + 1) * b ∧
    (trainMeter name fmt (vs.take (k + 1)) b).avg =
      (vs.take (k + 1)).sum / (((k + 1 : ℕ)) : ℚ) := by
  have hlen : (vs.take (k + 1)).length = k + 1 := by
    rw [List.length_take]
    omega
  have hne : vs.take (k + 1) ≠ [] := by
    intro h
    rw [h] at hlen
    simp at hlen
  have hsc := runMeter_sum_count b (vs.take (k + 1)) (AverageMeter.make name fmt)
  have havg := runMeter_avg b (vs.take (k + 1)) (AverageMeter.make name fmt) hne
  have hsum0 : (AverageMeter.make name fmt).sum = 0 := rfl
  have hcount0 : (AverageMeter.make name fmt).count = 0 := rfl
  have hcount : (trainMeter name fmt (vs.take (k + 1)) b).count = (k + 1) * b := by
    rw [trainMeter, hsc.2, hcount0, hlen, Nat.zero_add]
  refine ⟨hcount, ?_⟩
  rw [trainMeter, havg]
  show (runMeter (AverageMeter.make name fmt) (vs.take (k + 1)) b).sum /
      (((runMeter (AverageMeter.make name fmt) (vs.take (k + 1)) b).count : ℕ) : ℚ) = _
  rw [hsc.1, hsum0, hsc.2, hcount0, hlen]
  have hbq : ((b : ℕ) : ℚ) ≠ 0 := by
    exact_mod_cast hb.ne'
  push_cast
  rw [zero_add, zero_add, mul_div_mul_right _ _ hbq]

/-- C7 witness: the theorem applied at concrete loss values and batch
size. -/
theorem C7_meter_running_average_witness :
    0 < 2 ∧ 1 < ([3, 5] : List ℚ).length ∧
    ((trainMeter "G_S2T" ":3.2f" (([3, 5] : List ℚ).take (1 + 1)) 2).count =
      (1 + 1) * 2 ∧
     (trainMeter "G_S2T" ":3.2f" (([3, 5] : List ℚ).take (1 + 1)) 2).avg =
      (([3, 5] : List ℚ).take (1 + 1)).sum / (((1 + 1 : ℕ)) : ℚ)) :=
  ⟨by norm_num, by norm_num,
   C7_meter_running_average "G_S2T" ":3.2f" [3, 5] 2 1 (by norm_num)
     (by norm_num)⟩

theorem trainEpochsOf_append (a b : List MainEvent) :
    trainEpochsOf (a ++ b) = trainEpochsOf a ++ trainEpochsOf b := by
  simp [trainEpochsOf]

theorem trainLoop_one_call_per_epoch
    (trainT schedStepG schedStepD : ModelState → ModelState) :
    ∀ (es : List ℕ) (s : ModelState),
      trainEpochsOf (trainLoop trainT schedStepG schedStepD s es).2 = es
  | [], _ => rfl
  | e :: rest, s => by
      have ih := trainLoop_one_call_per_epoch trainT schedStepG schedStepD rest
        (epochBody trainT schedStepG schedStepD e s).1
      simp only [trainLoop, trainEpochsOf_append, ih]
      rfl

theorem pyRange_length (a b : ℕ) : (pyRange a b).length = b - a := by
  simp [pyRange]

/-- C5: in the train phase, each epoch runs `train`, then steps both
learning-rate schedulers, then saves a checkpoint recording all eight state
components of the post-step state together with the epoch number; the loop
calls `train` exactly once per epoch of
`range(args.start_epoch, args.epochs + args.epochs_decay)`, in order; and
resuming from a saved checkpoint restores all eight components and sets the
start epoch to the saved epoch plus one. -/
theorem C5_main_train_phase
    (trainT schedStepG schedStepD : ModelState → ModelState)
    (start_epoch total_epochs : ℕ) (s : ModelState) :
    (∀ (e : ℕ) (st : ModelState),
      epochBody trainT schedStepG schedStepD e st =
        (schedStepD (schedStepG (trainT st)),
         [MainEvent.trainCall e, MainEvent.schedulerStepG,
          MainEvent.schedulerStepD,
          MainEvent.save
            (saveCheckpoint (schedStepD (schedStepG (trainT st))) e)])) ∧
    trainEpochsOf
        (trainPhase trainT schedStepG schedStepD start_epoch total_epochs s).2 =
      pyRange start_epoch total_epochs ∧
    (pyRange start_epoch total_epochs).length = total_epochs - start_epoch ∧
    (∀ (st : ModelState) (e : ℕ),
      loadCheckpoint (saveCheckpoint st e) = (st, e + 1)) :=
  ⟨fun _ _ => rfl,
   trainLoop_one_call_per_epoch trainT schedStepG schedStepD _ s,
   pyRange_length start_epoch total_epochs,
   fun _ _ => rfl⟩

theorem isPrefixOf_append (l t : List Char) : l.isPrefixOf (l ++ t) = true := by
  induction l with
  | nil => simp [List.isPrefixOf]
  | cons c cs ih => simp [List.isPrefixOf, ih]

theorem exists_append_of_isPrefixOf :
    ∀ {l s : List Char}, l.isPrefixOf s = true → ∃ t, s = l ++ t
  | [], s, _ => ⟨s, rfl⟩
  | _ :: _, [], h => by simp [List.isPrefixOf] at h
  | c :: l, d :: s, h => by
      simp only [List.isPrefixOf, Bool.and_eq_true, beq_iff_eq] at h
      obtain ⟨rfl, ht⟩ := h
      obtain ⟨t, rfl⟩ := exists_append_of_isPrefixOf ht
      exact ⟨t, rfl⟩

theorem pyReplace_startsWith (s p r : String) (hp : p.data ≠ [])
    (hpre : p.data.isPrefixOf s.data = true) :
    strStartsWith (pyReplace s p r) r = true := by
  obtain ⟨t, ht⟩ := exists_append_of_isPrefixOf hpre
  cases hpd : p.data with
  | nil => exact absurd hpd hp
  | cons c p' =>
      have hs : s.data = c :: (p' ++ t) := by
        rw [ht, hpd]
        rfl
      unfold strStartsWith pyReplace
      rw [hs, hpd]
      show r.data.isPrefixOf
        (replaceFuel (c :: p') r.data ((p' ++ t).length + 1) (c :: (p' ++ t))) =
        true
      rw [replaceFuel]
      rw [if_pos]
      · exact isPrefixOf_append _ _
      · refine ⟨by simp, ?_⟩
        simp [List.isPrefixOf, isPrefixOf_append]

/-- C9 counterexample: with an absolute data-file line the sample path does
not contain the dataset root, so `str.replace` leaves it unchanged and
`translate` saves the translated image at the sample's own path — outside
`target_root` and overwriting the source image file. -/
theorem C9_translate_counterexample :
    VOCImageFolder.translate (fun c _ _ _ => c) (fun _ => ⟨8, 8, 0⟩)
        (fun i => ⟨i.width, i.height, i.content + 1⟩)
        (VOCImageFolder.make (fun _ => ["/abs/x"]) "/data" "trainval"
          (some ".jpg")) "/out" 4 =
      [⟨"/abs/x.jpg", ⟨8, 8, 1⟩⟩] ∧
    (VOCImageFolder.make (fun _ => ["/abs/x"]) "/data" "trainval"
        (some ".jpg")).samples = ["/abs/x.jpg"] ∧
    strStartsWith "/abs/x.jpg" "/out" = false ∧
    (fun _ : String => (⟨8, 8, 0⟩ : ImgF)) "/abs/x.jpg" ≠ (⟨8, 8, 1⟩ : ImgF) := by
  have hfix : make_power_2 (fun c _ _ _ => c) (ImgF.mk 8 8 0) 4 BICUBIC =
      ImgF.mk 8 8 0 :=
    make_power_2_of_dvd (fun c _ _ _ => c) (ImgF.mk 8 8 0) 4 BICUBIC (by norm_num)
      (by norm_num) (by norm_num) (by norm_num) (by norm_num)
  refine ⟨?_, by decide, by decide, by decide⟩
  have hsamp : (VOCImageFolder.make (fun _ => ["/abs/x"]) "/data" "trainval"
      (some ".jpg")).samples = ["/abs/x.jpg"] := by decide
  have hroot : (VOCImageFolder.make (fun _ => ["/abs/x"]) "/data" "trainval"
      (some ".jpg")).root = "/data" := rfl
  unfold VOCImageFolder.translate
  rw [hsamp, hroot]
  simp only [List.map_cons, List.map_nil, hfix]
  decide

/-- C9 (amended): every image saved by `translate` has exactly the original
image's dimensions `(ow, oh)` (it is resized back before saving), and
`translate` only emits file writes — the dataset's fields are untouched by
construction.  Provided every sample path starts with the dataset root (as
holds when all data-file lines are relative) and no sample path lies under
`target_root`, every write lands under `target_root` at
`path.replace(root, target_root)` and no source image file is overwritten;
an absolute sample path not containing the root escapes `target_root` and
overwrites its source file. -/
theorem C9_translate_frame (resample : ℕ → ℕ → ℕ → ℕ → ℕ)
    (fs : String → ImgF) (transform : ImgF → ImgF) (ds : VOCImageFolder)
    (target_root : String) (image_base : ℕ)
    (hroot : ds.root.data ≠ [])
    (hpref : ∀ p ∈ ds.samples, ds.root.data.isPrefixOf p.data = true)
    (hsep : ∀ p ∈ ds.samples, strStartsWith p target_root = false) :
    ∀ w ∈ VOCImageFolder.translate resample fs transform ds target_root
        image_base,
      (∃ p ∈ ds.samples,
        w.path = pyReplace p ds.root target_root ∧
        w.image.width = (fs p).width ∧ w.image.height = (fs p).height) ∧
      strStartsWith w.path target_root = true ∧
      w.path ∉ ds.samples := by
  intro w hw
  rw [VOCImageFolder.translate, List.mem_map] at hw
  obtain ⟨p, hp, rfl⟩ := hw
  have hstart : strStartsWith (pyReplace p ds.root target_root) target_root =
      true :=
    pyReplace_startsWith p ds.root target_root hroot (hpref p hp)
  refine ⟨⟨p, hp, rfl, rfl, rfl⟩, hstart, ?_⟩
  intro hmem
  have h1 := hsep _ hmem
  have h2 : (true : Bool) = false := hstart.symm.trans h1
  simp at h2

/-- C9 witness: the amended theorem applied at a concrete dataset. -/
theorem C9_translate_frame_witness :
    ("/data" : String).data ≠ [] ∧
    (∀ p ∈ (VOCImageFolder.make (fun _ => ["a"]) "/data" "trainval"
        (some ".jpg")).samples, ("/data" : String).data.isPrefixOf p.data = true) ∧
    (∀ p ∈ (VOCImageFolder.make (fun _ => ["a"]) "/data" "trainval"
        (some ".jpg")).samples, strStartsWith p "/out" = false) ∧
    (∀ w ∈ VOCImageFolder.translate (fun c _ _ _ => c) (fun _ => ⟨7, 9, 0⟩)
        (fun i => i)
        (VOCImageFolder.make (fun _ => ["a"]) "/data" "trainval" (some ".jpg"))
        "/out" 4,
      (∃ p ∈ (VOCImageFolder.make (fun _ => ["a"]) "/data" "trainval"
          (some ".jpg")).samples,
        w.path = pyReplace p (VOCImageFolder.make (fun _ => ["a"]) "/data"
          "trainval" (some ".jpg")).root "/out" ∧
        w.image.width = ((fun _ : String => (⟨7, 9, 0⟩ : ImgF)) p).width ∧
        w.image.height = ((fun _ : String => (⟨7, 9, 0⟩ : ImgF)) p).height) ∧
      strStartsWith w.path "/out" = true ∧
      w.path ∉ (VOCImageFolder.make (fun _ => ["a"]) "/data" "trainval"
          (some ".jpg")).samples) :=
  ⟨by decide, by decide, by decide,
   C9_translate_frame (fun c _ _ _ => c) (fun _ => ⟨7, 9, 0⟩) (fun i => i)
     (VOCImageFolder.make (fun _ => ["a"]) "/data" "trainval" (some ".jpg"))
     "/out" 4 (by decide) (by decide) (by decide)⟩
